import Mathlib

/-!
Verification development for the ChowRNN module of ChowDSP-VCV
(src/ChowRNN/ChowRNN.cpp), a per-sample neural-network inference engine:
a fixed pipeline Dense(4,4) → Tanh(4) → GRU(4,4) → Dense(4,1) with
in-place weight randomisation, JSON persistence of the weights, and a
NaN guard that zeroes the sample and resets the recurrent state.

Scalars are modelled exactly: a value is either a finite rational, one of
the two infinities, or NaN (`FV`), with IEEE-754 special-value rules and
exact arithmetic on the finite payload (no rounding or overflow).  The
transcendental activations `tanh` and the logistic sigmoid are C library
functions, so they are taken as parameters on the finite payload; their
IEEE limit behaviour at ±∞ and NaN is fixed.
-/

namespace ChowDSP

/-- A floating-point value: finite rational payload, infinities, or NaN. -/
inductive FV where
  | fin (q : ℚ)
  | pinf
  | ninf
  | nan
deriving DecidableEq

/-- IEEE addition over `FV`, exact on finite payloads. -/
def addFV : FV → FV → FV
  | .nan, _ => .nan
  | _, .nan => .nan
  | .fin a, .fin b => .fin (a + b)
  | .pinf, .ninf => .nan
  | .ninf, .pinf => .nan
  | .pinf, _ => .pinf
  | _, .pinf => .pinf
  | .ninf, _ => .ninf
  | _, .ninf => .ninf

/-- IEEE negation over `FV`. -/
def negFV : FV → FV
  | .fin a => .fin (-a)
  | .pinf => .ninf
  | .ninf => .pinf
  | .nan => .nan

/-- IEEE subtraction over `FV`. -/
def subFV (a b : FV) : FV := addFV a (negFV b)

/-- IEEE multiplication over `FV`, exact on finite payloads (`0 · ∞ = NaN`). -/
def mulFV : FV → FV → FV
  | .nan, _ => .nan
  | _, .nan => .nan
  | .fin a, .fin b => .fin (a * b)
  | .fin a, .pinf => if 0 < a then .pinf else if a < 0 then .ninf else .nan
  | .pinf, .fin a => if 0 < a then .pinf else if a < 0 then .ninf else .nan
  | .fin a, .ninf => if 0 < a then .ninf else if a < 0 then .pinf else .nan
  | .ninf, .fin a => if 0 < a then .ninf else if a < 0 then .pinf else .nan
  | .pinf, .pinf => .pinf
  | .ninf, .ninf => .pinf
  | .pinf, .ninf => .ninf
  | .ninf, .pinf => .ninf

/-- `std::isnan`. -/
def isnanFV : FV → Bool
  | .nan => true
  | _ => false

/-- `true` exactly on finite values. -/
def isfiniteFV : FV → Bool
  | .fin _ => true
  | _ => false

/-- `tanh` extended to `FV`: `t` is the (libm) finite-payload function;
`tanh (±∞) = ±1`, `tanh NaN = NaN`. -/
def tanhFV (t : ℚ → ℚ) : FV → FV
  | .fin q => .fin (t q)
  | .pinf => .fin 1
  | .ninf => .fin (-1)
  | .nan => .nan

/-- Logistic sigmoid extended to `FV`: `s` is the finite-payload function;
`σ (+∞) = 1`, `σ (−∞) = 0`, `σ NaN = NaN`. -/
def sigmoidFV (s : ℚ → ℚ) : FV → FV
  | .fin q => .fin (s q)
  | .pinf => .fin 1
  | .ninf => .fin 0
  | .nan => .nan

/-- Dot product of a (finite, rational) weight row with an `FV` vector,
accumulated left to right from 0 as the in-place loops of MLUtils do. -/
def dotFV {n : ℕ} (w : Fin n → ℚ) (x : Fin n → FV) : FV :=
  (List.finRange n).foldl (fun acc j => addFV acc (mulFV (.fin (w j)) (x j))) (.fin 0)

/-- A vector carrying its own width, as the dynamically sized per-layer
buffers of `MLUtils::Model` do. -/
structure DVec where
  n : ℕ
  v : Fin n → FV

/-- Modelled from the spec: the `MLUtils` layer variants used by the module
(`Dense`, `TanhActivation`, `GRULayer`), whose sources are not under src/.
A closed tagged variant as §9 of the spec suggests; weights are finite
(from construction, randomisation, or JSON, all of which produce finite
values), while the GRU's persistent hidden state `h` is a run-time `FV`. -/
inductive Layer where
  | dense (outSize inSize : ℕ)
      (w : Fin outSize → Fin inSize → ℚ) (b : Fin outSize → ℚ)
  | tanhAct (size : ℕ)
  | gru (size inSize : ℕ)
      (wr wz wn : Fin size → Fin inSize → ℚ)
      (ur uz un : Fin size → Fin size → ℚ)
      (br bz bn : Fin size → ℚ)
      (h : Fin size → FV)

/-- Modelled from the spec: Affine layer contract `forward(x) = W·x + b`
(§4.1; `MLUtils::Dense` source missing). -/
def denseForward {m n : ℕ} (w : Fin m → Fin n → ℚ) (b : Fin m → ℚ)
    (x : Fin n → FV) : Fin m → FV :=
  fun i => addFV (dotFV (w i) x) (.fin (b i))

/-- Modelled from the spec: the gated-recurrent update of §4.3
(`MLUtils::GRULayer` source missing):
`r = σ(Wr x + Ur h + br)`, `z = σ(Wz x + Uz h + bz)`,
`n = tanh(Wn x + Un (r ⊙ h) + bn)`, new state `(1 − z) ⊙ n + z ⊙ h`. -/
def gruNextH (tq sq : ℚ → ℚ) {m n : ℕ}
    (wr wz wn : Fin m → Fin n → ℚ) (ur uz un : Fin m → Fin m → ℚ)
    (br bz bn : Fin m → ℚ) (h : Fin m → FV) (x : Fin n → FV) : Fin m → FV :=
  let r : Fin m → FV := fun i =>
    sigmoidFV sq (addFV (addFV (dotFV (wr i) x) (dotFV (ur i) h)) (.fin (br i)))
  let z : Fin m → FV := fun i =>
    sigmoidFV sq (addFV (addFV (dotFV (wz i) x) (dotFV (uz i) h)) (.fin (bz i)))
  let rh : Fin m → FV := fun j => mulFV (r j) (h j)
  let nn : Fin m → FV := fun i =>
    tanhFV tq (addFV (addFV (dotFV (wn i) x) (dotFV (un i) rh)) (.fin (bn i)))
  fun i => addFV (mulFV (subFV (.fin 1) (z i)) (nn i)) (mulFV (z i) (h i))

/-- Modelled from the spec: `Layer::forward` for each variant (§4.1–§4.3);
a width mismatch is a construction-time invariant violation (§4.1, §7), so
it is `none` here.  The GRU returns its new state and commits it. -/
def Layer.forward (tq sq : ℚ → ℚ) : Layer → DVec → Option (DVec × Layer)
  | .dense m n w b, x =>
    if hn : x.n = n then
      some (⟨m, denseForward w b (fun j => x.v (Fin.cast hn.symm j))⟩, .dense m n w b)
    else none
  | .tanhAct m, x =>
    if hn : x.n = m then
      some (⟨m, fun i => tanhFV tq (x.v (Fin.cast hn.symm i))⟩, .tanhAct m)
    else none
  | .gru m n wr wz wn ur uz un br bz bn h, x =>
    if hn : x.n = n then
      let h2 := gruNextH tq sq wr wz wn ur uz un br bz bn h
        (fun j => x.v (Fin.cast hn.symm j))
      some (⟨m, h2⟩, .gru m n wr wz wn ur uz un br bz bn h2)
    else none

/-- `Layer::reset`: zeroes the GRU's hidden state, no-op otherwise (§4.3). -/
def Layer.reset : Layer → Layer
  | .gru m n wr wz wn ur uz un br bz bn _ =>
    .gru m n wr wz wn ur uz un br bz bn (fun _ => .fin 0)
  | l => l

/-- Modelled from the spec: `MLUtils::Model::forward` chains the layers in
construction order, feeding each output to the next layer (§4.4), and
threads the updated layers (the GRU commit) through. -/
def modelForwardVec (tq sq : ℚ → ℚ) : List Layer → DVec → Option (DVec × List Layer)
  | [], x => some (x, [])
  | l :: ls, x =>
    match l.forward tq sq x with
    | none => none
    | some (y, l2) =>
      match modelForwardVec tq sq ls y with
      | none => none
      | some (z, ls2) => some (z, l2 :: ls2)

/-- Modelled from the spec: `MLUtils::Model::forward` returns the scalar
produced by the final layer (§4.4). -/
def modelForward (tq sq : ℚ → ℚ) (ls : List Layer) (x : DVec) :
    Option (FV × List Layer) :=
  match modelForwardVec tq sq ls x with
  | none => none
  | some (y, ls2) => if h0 : 0 < y.n then some (y.v ⟨0, h0⟩, ls2) else none

/-- `MLUtils::Model::reset` propagates reset to every layer (§4.4). -/
def modelReset (ls : List Layer) : List Layer := ls.map Layer.reset

/-- The weight tensors of the fixed ChowRNN topology: first affine 4→4,
recurrent 4→4, output affine 4→1 (NDims = 4). -/
structure NetW where
  w1 : Fin 4 → Fin 4 → ℚ
  b1 : Fin 4 → ℚ
  wr : Fin 4 → Fin 4 → ℚ
  wz : Fin 4 → Fin 4 → ℚ
  wn : Fin 4 → Fin 4 → ℚ
  ur : Fin 4 → Fin 4 → ℚ
  uz : Fin 4 → Fin 4 → ℚ
  un : Fin 4 → Fin 4 → ℚ
  br : Fin 4 → ℚ
  bz : Fin 4 → ℚ
  bn : Fin 4 → ℚ
  wo : Fin 1 → Fin 4 → ℚ
  bo : Fin 1 → ℚ

/-- The layer list built by the four `addLayer` calls of the ChowRNN
constructor: Dense(4,4), TanhActivation(4), GRULayer(4,4), Dense(4,1). -/
def chowLayers (p : NetW) (h : Fin 4 → FV) : List Layer :=
  [.dense 4 4 p.w1 p.b1, .tanhAct 4,
   .gru 4 4 p.wr p.wz p.wn p.ur p.uz p.un p.br p.bz p.bn h,
   .dense 1 4 p.wo p.bo]

/-- Well-formed layer list: the shape every reachable ChowRNN state has. -/
def WF (ls : List Layer) : Prop := ∃ p h, ls = chowLayers p h

/-- Modelled from the spec: the random source behind `LayerRandomiser`
(source missing), a stream of independent draws with a cursor (§4.5). -/
structure RNG where
  gen : ℕ → ℚ
  idx : ℕ

/-- Draw an `m × n` matrix of fresh values, row-major, advancing the cursor. -/
def drawMat (r : RNG) (m n : ℕ) : (Fin m → Fin n → ℚ) × RNG :=
  ((fun i j => r.gen (r.idx + i.val * n + j.val)), ⟨r.gen, r.idx + m * n⟩)

/-- Draw a length-`m` vector of fresh values, advancing the cursor. -/
def drawVec (r : RNG) (m : ℕ) : (Fin m → ℚ) × RNG :=
  ((fun i => r.gen (r.idx + i.val)), ⟨r.gen, r.idx + m⟩)

/-- Modelled from the spec: `LayerRandomiser::randomDenseWeights`
overwrites every element of `W` with a fresh draw (§4.5). -/
def randomDenseWeights (r : RNG) : Layer → Layer × RNG
  | .dense m n _ b => ((.dense m n (drawMat r m n).1 b), (drawMat r m n).2)
  | l => (l, r)

/-- Modelled from the spec: `LayerRandomiser::randomDenseBias`
overwrites every element of `b` with a fresh draw (§4.5). -/
def randomDenseBias (r : RNG) : Layer → Layer × RNG
  | .dense m n w _ => ((.dense m n w (drawVec r m).1), (drawVec r m).2)
  | l => (l, r)

/-- Modelled from the spec: `LayerRandomiser::zeroDenseBias`
deterministically sets every element of `b` to 0 (§4.5). -/
def zeroDenseBias : Layer → Layer
  | .dense m n w _ => .dense m n w (fun _ => 0)
  | l => l

/-- Modelled from the spec: `LayerRandomiser::randomGRU` overwrites every
element of the nine GRU tensors and does not touch `h` (§4.5). -/
def randomGRU (r : RNG) : Layer → Layer × RNG
  | .gru m n _ _ _ _ _ _ _ _ _ h =>
    let pwr := drawMat r m n
    let pwz := drawMat pwr.2 m n
    let pwn := drawMat pwz.2 m n
    let pur := drawMat pwn.2 m m
    let puz := drawMat pur.2 m m
    let pun := drawMat puz.2 m m
    let pbr := drawVec pun.2 m
    let pbz := drawVec pbr.2 m
    let pbn := drawVec pbz.2 m
    (.gru m n pwr.1 pwz.1 pwn.1 pur.1 puz.1 pun.1 pbr.1 pbz.1 pbn.1 h, pbn.2)
  | l => (l, r)

/-- The transposed-direct-form-II state of `rack::dsp::BiquadFilter`
(external collaborator; modelled from the spec, §4.7/§6: a standard
biquad highpass used as DC blocker). -/
structure BiquadState where
  z1 : FV
  z2 : FV

/-- The five coefficients `setParameters` derives from cutoff/sample-rate/Q;
the derivation is external trigonometric code, so the coefficients are
taken as given per sample. -/
structure BiquadCoeffs where
  cb0 : ℚ
  cb1 : ℚ
  cb2 : ℚ
  ca1 : ℚ
  ca2 : ℚ

/-- Modelled from the spec: one step of the standard biquad (transposed
direct form II), returning the output sample and the new filter state. -/
def biquadProcess (c : BiquadCoeffs) (st : BiquadState) (x : FV) : FV × BiquadState :=
  let y := addFV (mulFV (.fin c.cb0) x) st.z1
  (y, ⟨addFV (subFV (mulFV (.fin c.cb1) x) (mulFV (.fin c.ca1) y)) st.z2,
       subFV (mulFV (.fin c.cb2) x) (mulFV (.fin c.ca2) y)⟩)

/-- The persistent state of a ChowRNN module instance: the model's layers,
the randomiser's random source, and the DC-blocker state. -/
structure ChowRNNState where
  layers : List Layer
  rando : RNG
  dcBlocker : BiquadState

/-- `ChowRNN::ChowRNN`: build the four layers, `model.reset()`, then
`rando.zeroDenseBias` on the last layer.  Initial tensor values come from
the (unspecified) `MLUtils` constructors, so they are parameters. -/
def ChowRNNInit (p : NetW) (h0 : Fin 4 → FV) (rng : RNG) : ChowRNNState :=
  let ls0 := chowLayers p h0
  let ls1 := modelReset ls0
  let ls2 := match ls1 with
    | [] => []
    | l :: ls => (l :: ls).dropLast ++ [zeroDenseBias ((l :: ls).getLast (by simp))]
  ⟨ls2, rng, ⟨.fin 0, .fin 0⟩⟩

/-- The `dynamic_cast`-guarded in-place update of one layer of the list,
as `randomiseModel` does for `model.layers[0]`, `[2]`, `[3]`. -/
def updateLayerAt (ls : List Layer) (i : ℕ) (f : RNG → Layer → Layer × RNG)
    (r : RNG) : List Layer × RNG :=
  match ls[i]? with
  | some l => ((ls.set i (f r l).1), (f r l).2)
  | none => (ls, r)

/-- `ChowRNN::randomiseModel`: random weights and bias for `layers[0]`
(first Dense), all GRU tensors for `layers[2]`, and weights only for
`layers[3]` (output Dense). -/
def randomiseModel (s : ChowRNNState) : ChowRNNState :=
  let u1 := updateLayerAt s.layers 0
    (fun r l => randomDenseBias (randomDenseWeights r l).2 (randomDenseWeights r l).1)
    s.rando
  let u2 := updateLayerAt u1.1 2 randomGRU u1.2
  let u3 := updateLayerAt u2.1 3 randomDenseWeights u2.2
  ⟨u3.1, u3.2, s.dcBlocker⟩

/-- One input port as `process` sees it: whether a cable is connected and
the voltage `getVoltage` returns (0 for an unconnected port). -/
structure InPort where
  connected : Bool
  voltage : FV

/-- The connected-input count of the makeup-gain loop in `process`. -/
def numConnected (inputs : Fin 4 → InPort) : ℕ :=
  ((List.finRange 4).filter (fun i => (inputs i).connected)).length

/-- `makeupGain = 4.0f / (float) std::max(numConnected, 1)`. -/
def makeupGain (inputs : Fin 4 → InPort) : ℚ :=
  4 / ((max (numConnected inputs) 1 : ℕ) : ℚ)

/-- `ChowRNN::process`: optional randomisation on the trigger param, read
the four input voltages, `model.forward`, the `std::isnan` instability
guard (zero the sample and `model.reset()`), the DC-blocker biquad, and
the makeup gain; the pair is (new state, emitted output voltage).  The
function is total: no failure is ever propagated to the caller.  The
`none` branch of the forward match is unreachable for the fixed topology
(widths chain), matching §4.1's construction-time invariant. -/
def process (tq sq : ℚ → ℚ) (coeffs : BiquadCoeffs) (randomParam : ℚ)
    (inputs : Fin 4 → InPort) (s : ChowRNNState) : ChowRNNState × FV :=
  let s1 := if randomParam ≠ 0 then randomiseModel s else s
  let input : DVec := ⟨4, fun i => (inputs i).voltage⟩
  match modelForward tq sq s1.layers input with
  | none => (s1, .fin 0)
  | some (y, ls1) =>
    let guarded : FV × List Layer :=
      if isnanFV y then (.fin 0, modelReset ls1) else (y, ls1)
    let bq := biquadProcess coeffs s1.dcBlocker guarded.1
    (⟨guarded.2, s1.rando, bq.2⟩, mulFV bq.1 (.fin (makeupGain inputs)))

/-- The GRU hidden state after one ChowRNN forward pass: the recurrent
update applied to the tanh of the first affine layer's output. -/
def chowGruNext (tq sq : ℚ → ℚ) (p : NetW) (h : Fin 4 → FV) (x : Fin 4 → FV) :
    Fin 4 → FV :=
  gruNextH tq sq p.wr p.wz p.wn p.ur p.uz p.un p.br p.bz p.bn h
    (fun i => tanhFV tq (denseForward p.w1 p.b1 x i))

/-- The scalar a ChowRNN forward pass returns: the output affine layer
applied to the new GRU state. -/
def chowOut (tq sq : ℚ → ℚ) (p : NetW) (h : Fin 4 → FV) (x : Fin 4 → FV) : FV :=
  addFV (dotFV (p.wo 0) (chowGruNext tq sq p h x)) (.fin (p.bo 0))

/-- The weights and the RNG state after one `randomiseModel` call on a
well-formed state: fresh draws for the first affine layer's weights and
bias, the nine GRU tensors, and the output layer's weights; the output
bias is kept. -/
def randDraws (p : NetW) (r : RNG) : NetW × RNG :=
  let d1 := drawMat r 4 4
  let d2 := drawVec d1.2 4
  let g1 := drawMat d2.2 4 4
  let g2 := drawMat g1.2 4 4
  let g3 := drawMat g2.2 4 4
  let g4 := drawMat g3.2 4 4
  let g5 := drawMat g4.2 4 4
  let g6 := drawMat g5.2 4 4
  let v1 := drawVec g6.2 4
  let v2 := drawVec v1.2 4
  let v3 := drawVec v2.2 4
  let dO := drawMat v3.2 1 4
  ({ w1 := d1.1, b1 := d2.1, wr := g1.1, wz := g2.1, wn := g3.1,
     ur := g4.1, uz := g5.1, un := g6.1, br := v1.1, bz := v2.1, bn := v3.1,
     wo := dO.1, bo := p.bo }, dO.2)

/-- The keys of the persistence document: the three top-level layer keys
(`"dense1"`, `"gru"`, `"denseOut"`) and the per-tensor field names of the
per-layer records, modelled as an enumerated type. -/
inductive JKey where
  | dense1
  | gru
  | denseOut
  | weights
  | bias
  | kwr
  | kwz
  | kwn
  | kur
  | kuz
  | kun
  | kbr
  | kbz
  | kbn
deriving DecidableEq

/-- Modelled from the spec: one serialized tensor — a flattened ordered
sequence of values plus the shape needed to reconstruct it (§4.6). -/
structure TensorRec where
  rows : ℕ
  cols : ℕ
  data : List ℚ

/-- A per-layer record: a mapping from field names to tensors (§4.6). -/
def LayerRec : Type := List (JKey × TensorRec)

/-- The whole persistence document: per-layer records under the
layer-identifying top-level keys (§6). -/
def Doc : Type := List (JKey × LayerRec)

/-- `json_object_get`: look a key up in a key-value document. -/
def alookup {β : Type} (k : JKey) : List (JKey × β) → Option β
  | [] => none
  | kv :: rest => if kv.1 = k then some kv.2 else alookup k rest

/-- Concatenation of the rows of a matrix (row-major flattening). -/
def rowsFlat : List (List ℚ) → List ℚ
  | [] => []
  | r :: rest => r ++ rowsFlat rest

/-- Row-major flattening of a weight matrix. -/
def matData {m n : ℕ} (w : Fin m → Fin n → ℚ) : List ℚ :=
  rowsFlat ((List.finRange m).map (fun i => List.ofFn (fun j => w i j)))

/-- Serialize a matrix: flattened data plus its shape. -/
def matToJson {m n : ℕ} (w : Fin m → Fin n → ℚ) : TensorRec := ⟨m, n, matData w⟩

/-- Serialize a vector: flattened data plus its shape (a column). -/
def vecToJson {m : ℕ} (b : Fin m → ℚ) : TensorRec := ⟨m, 1, List.ofFn b⟩

/-- Read a matrix field back: a missing field, or a field whose shape or
element count does not match, leaves the old tensor untouched (§4.6, §7). -/
def getMat (m n : ℕ) (rec : LayerRec) (k : JKey)
    (old : Fin m → Fin n → ℚ) : Fin m → Fin n → ℚ :=
  match alookup k rec with
  | some t =>
    if t.rows = m ∧ t.cols = n ∧ t.data.length = m * n then
      fun i j => t.data.getD (i.val * n + j.val) 0
    else old
  | none => old

/-- Read a vector field back, with the same partial-update tolerance. -/
def getVec (m : ℕ) (rec : LayerRec) (k : JKey) (old : Fin m → ℚ) : Fin m → ℚ :=
  match alookup k rec with
  | some t =>
    if t.rows = m ∧ t.cols = 1 ∧ t.data.length = m then
      fun i => t.data.getD i.val 0
    else old
  | none => old

/-- Modelled from the spec: `LayerJson::DenseToJson` — the Dense layer's
weights and bias under stable field names (§4.6). -/
def DenseToJson : Layer → LayerRec
  | .dense _ _ w b => [(.weights, matToJson w), (.bias, vecToJson b)]
  | _ => []

/-- Modelled from the spec: `LayerJson::GruToJson` — the nine GRU tensors
under per-gate field names; the hidden state is never serialized (§3, §4.6). -/
def GruToJson : Layer → LayerRec
  | .gru _ _ wr wz wn ur uz un br bz bn _ =>
    [(.kwr, matToJson wr), (.kwz, matToJson wz), (.kwn, matToJson wn),
     (.kur, matToJson ur), (.kuz, matToJson uz), (.kun, matToJson un),
     (.kbr, vecToJson br), (.kbz, vecToJson bz), (.kbn, vecToJson bn)]
  | _ => []

/-- Modelled from the spec: `LayerJson::JsonToDense` — overwrite the Dense
tensors from the record, skipping missing or wrongly shaped fields (§4.6). -/
def JsonToDense : Layer → LayerRec → Layer
  | .dense m n w b, rec => .dense m n (getMat m n rec .weights w) (getVec m rec .bias b)
  | l, _ => l

/-- Modelled from the spec: `LayerJson::JsonToGru` — overwrite the nine GRU
tensors from the record, skipping missing or wrongly shaped fields; the
hidden state `h` is not touched (§4.6). -/
def JsonToGru : Layer → LayerRec → Layer
  | .gru m n wr wz wn ur uz un br bz bn h, rec =>
    .gru m n (getMat m n rec .kwr wr) (getMat m n rec .kwz wz) (getMat m n rec .kwn wn)
      (getMat m m rec .kur ur) (getMat m m rec .kuz uz) (getMat m m rec .kun un)
      (getVec m rec .kbr br) (getVec m rec .kbz bz) (getVec m rec .kbn bn) h
  | l, _ => l

/-- `ChowRNN::dataToJson`: per-layer records for `layers[0]`, `[2]`, `[3]`
under the keys `"dense1"`, `"gru"`, `"denseOut"`, each guarded by the
`dynamic_cast` on the layer. -/
def dataToJson (s : ChowRNNState) : Doc :=
  (match s.layers[0]? with
   | some (Layer.dense m n w b) => [(JKey.dense1, DenseToJson (.dense m n w b))]
   | _ => []) ++
  (match s.layers[2]? with
   | some (Layer.gru m n wr wz wn ur uz un br bz bn h) =>
     [(JKey.gru, GruToJson (.gru m n wr wz wn ur uz un br bz bn h))]
   | _ => []) ++
  (match s.layers[3]? with
   | some (Layer.dense m n w b) => [(JKey.denseOut, DenseToJson (.dense m n w b))]
   | _ => [])

/-- `ChowRNN::dataFromJson`: for each top-level key, if the key is present
in the document (and the `dynamic_cast` succeeds) load that layer from its
record; an absent key is skipped without error. -/
def dataFromJson (s : ChowRNNState) (doc : Doc) : ChowRNNState :=
  let ls := s.layers
  let ls1 := match alookup JKey.dense1 doc with
    | some r =>
      (match ls[0]? with
       | some (Layer.dense m n w b) => ls.set 0 (JsonToDense (.dense m n w b) r)
       | _ => ls)
    | none => ls
  let ls2 := match alookup JKey.gru doc with
    | some r =>
      (match ls1[2]? with
       | some (Layer.gru m n wr wz wn ur uz un br bz bn h) =>
         ls1.set 2 (JsonToGru (.gru m n wr wz wn ur uz un br bz bn h) r)
       | _ => ls1)
    | none => ls1
  let ls3 := match alookup JKey.denseOut doc with
    | some r =>
      (match ls2[3]? with
       | some (Layer.dense m n w b) => ls2.set 3 (JsonToDense (.dense m n w b) r)
       | _ => ls2)
    | none => ls2
  ⟨ls3, s.rando, s.dcBlocker⟩

/-- The per-sample arguments of one `process` call. -/
structure CallArgs where
  tq : ℚ → ℚ
  sq : ℚ → ℚ
  coeffs : BiquadCoeffs
  randomParam : ℚ
  inputs : Fin 4 → InPort

/-- The state transition of one `process` call. -/
def processStep (s : ChowRNNState) (c : CallArgs) : ChowRNNState :=
  (process c.tq c.sq c.coeffs c.randomParam c.inputs s).1

/-- A concrete finite-payload stand-in for `tanh` (identity), used only to
instantiate witnesses; the claims hold for every payload function. -/
def tqId : ℚ → ℚ := fun q => q

/-- A concrete finite-payload stand-in for the sigmoid (constantly 1/2). -/
def sqHalf : ℚ → ℚ := fun _ => 1 / 2

/-- Concrete weights for witnesses: ones in `w1`, `wn`, `wo`, zeros elsewhere. -/
def netW0 : NetW :=
  ⟨fun _ _ => 1, fun _ => 0, fun _ _ => 0, fun _ _ => 0, fun _ _ => 1,
   fun _ _ => 0, fun _ _ => 0, fun _ _ => 0, fun _ => 0, fun _ => 0, fun _ => 0,
   fun _ _ => 1, fun _ => 0⟩

/-- A concrete random stream for witnesses. -/
def rng0 : RNG := ⟨fun k => (k : ℚ), 0⟩

/-- Concrete biquad coefficients for witnesses (b1 = 1, rest 0). -/
def bqC : BiquadCoeffs := ⟨0, 1, 0, 0, 0⟩

/-- All four inputs connected, carrying 1 V. -/
def portsOne : Fin 4 → InPort := fun _ => ⟨true, .fin 1⟩

/-- All four inputs connected, carrying NaN. -/
def portsNan : Fin 4 → InPort := fun _ => ⟨true, .nan⟩

/-- No input connected. -/
def portsNone : Fin 4 → InPort := fun _ => ⟨false, .fin 0⟩

/-- A freshly constructed module state with the concrete witness weights. -/
def state0 : ChowRNNState := ChowRNNInit netW0 (fun _ => .fin 0) rng0

/-- A module state whose DC blocker holds residue from earlier samples
(`z1 = 1`); the DC blocker's state becomes nonzero after any ordinary
sample with a nonzero filter output history. -/
def stateZ1 : ChowRNNState :=
  ⟨chowLayers netW0 (fun _ => .fin 0), rng0, ⟨.fin 1, .fin 0⟩⟩

/-- Weights for the C1 counterexample: ones in the three recurrent
matrices and the output weights, zeros elsewhere. -/
def netInf : NetW :=
  ⟨fun _ _ => 0, fun _ => 0, fun _ _ => 0, fun _ _ => 0, fun _ _ => 0,
   fun _ _ => 1, fun _ _ => 1, fun _ _ => 1, fun _ => 0, fun _ => 0, fun _ => 0,
   fun _ _ => 1, fun _ => 0⟩

/-- A module state whose recurrent hidden state has saturated to `+∞` —
the float program's overflow regime, which 32-bit float accumulation can
reach (e.g. after `dataFromJson` loads large weights and the dot products
overflow), represented directly in the value domain. -/
def stateInf : ChowRNNState :=
  ⟨chowLayers netInf (fun _ => .pinf), rng0, ⟨.fin 0, .fin 0⟩⟩

theorem modelForward_chow (tq sq : ℚ → ℚ) (p : NetW) (h : Fin 4 → FV)
    (x : Fin 4 → FV) :
    modelForward tq sq (chowLayers p h) ⟨4, x⟩ =
      some (chowOut tq sq p h x, chowLayers p (chowGruNext tq sq p h x)) := rfl

theorem modelReset_chow (p : NetW) (h : Fin 4 → FV) :
    modelReset (chowLayers p h) = chowLayers p (fun _ => .fin 0) := rfl

theorem randomiseModel_chow (p : NetW) (h : Fin 4 → FV) (rng : RNG)
    (dc : BiquadState) :
    randomiseModel ⟨chowLayers p h, rng, dc⟩ =
      ⟨chowLayers (randDraws p rng).1 h, (randDraws p rng).2, dc⟩ := rfl

theorem ChowRNNInit_eq (p : NetW) (h0 : Fin 4 → FV) (rng : RNG) :
    ChowRNNInit p h0 rng =
      ⟨chowLayers { p with bo := fun _ => 0 } (fun _ => .fin 0), rng,
       ⟨.fin 0, .fin 0⟩⟩ := rfl

theorem process_chow (tq sq : ℚ → ℚ) (coeffs : BiquadCoeffs) (rp : ℚ)
    (inputs : Fin 4 → InPort) (p : NetW) (h : Fin 4 → FV) (rng : RNG)
    (dc : BiquadState) :
    process tq sq coeffs rp inputs ⟨chowLayers p h, rng, dc⟩ =
      (let p1 := if rp ≠ 0 then (randDraws p rng).1 else p
       let r1 := if rp ≠ 0 then (randDraws p rng).2 else rng
       let xv : Fin 4 → FV := fun i => (inputs i).voltage
       let y := chowOut tq sq p1 h xv
       let g : FV × List Layer :=
         if isnanFV y then (.fin 0, chowLayers p1 (fun _ => .fin 0))
         else (y, chowLayers p1 (chowGruNext tq sq p1 h xv))
       let bq := biquadProcess coeffs dc g.1
       (⟨g.2, r1, bq.2⟩, mulFV bq.1 (.fin (makeupGain inputs)))) := by
  by_cases hrp : rp = 0
  · subst hrp
    simp only [process, ne_eq, not_true_eq_false, if_false, modelForward_chow,
      modelReset_chow]
  · simp only [process, ne_eq, hrp, not_false_eq_true, if_true,
      randomiseModel_chow, modelForward_chow, modelReset_chow]

theorem getD_ofFn {n : ℕ} (f : Fin n → ℚ) (i : Fin n) :
    (List.ofFn f).getD i.val 0 = f i := by
  have hi : i.val < (List.ofFn f).length := by simp [i.isLt]
  rw [List.getD_eq_getElem _ _ hi, List.getElem_ofFn]

theorem rowsFlat_length (n : ℕ) :
    ∀ (rows : List (List ℚ)), (∀ r ∈ rows, r.length = n) →
      (rowsFlat rows).length = rows.length * n := by
  intro rows
  induction rows with
  | nil => intro _; simp [rowsFlat]
  | cons r rest ih =>
    intro hr
    simp only [rowsFlat, List.length_append, List.length_cons]
    rw [ih (fun a ha => hr a (List.mem_cons_of_mem _ ha)),
      hr r (List.mem_cons_self _ _)]
    ring

theorem rowsFlat_getD (n : ℕ) :
    ∀ (rows : List (List ℚ)) (i j : ℕ), (∀ r ∈ rows, r.length = n) →
      i < rows.length → j < n →
      (rowsFlat rows).getD (i * n + j) 0 = (rows.getD i []).getD j 0 := by
  intro rows
  induction rows with
  | nil => intro i j _ hi _; simp at hi
  | cons r rest ih =>
    intro i j hr hi hj
    have hlen : r.length = n := hr r (List.mem_cons_self _ _)
    cases i with
    | zero =>
      simp only [rowsFlat, Nat.zero_mul, Nat.zero_add]
      rw [List.getD_append _ _ _ _ (by omega)]
      rfl
    | succ i2 =>
      have hidx : (i2 + 1) * n + j = r.length + (i2 * n + j) := by
        rw [hlen]; ring
      simp only [rowsFlat]
      rw [hidx, List.getD_append_right _ _ _ _ (by omega), Nat.add_sub_cancel_left,
        ih i2 j (fun a ha => hr a (List.mem_cons_of_mem _ ha))
          (by simpa using hi) hj]
      rfl

theorem matData_length {m n : ℕ} (w : Fin m → Fin n → ℚ) :
    (matData w).length = m * n := by
  unfold matData
  rw [rowsFlat_length n _ ?hall]
  · simp
  case hall =>
    intro r hr
    simp only [List.mem_map] at hr
    obtain ⟨i, _, rfl⟩ := hr
    simp

theorem matData_getD {m n : ℕ} (w : Fin m → Fin n → ℚ) (i : Fin m) (j : Fin n) :
    (matData w).getD (i.val * n + j.val) 0 = w i j := by
  unfold matData
  rw [rowsFlat_getD n _ i.val j.val ?hall (by simp [i.isLt]) j.isLt]
  · have hlen : i.val <
        ((List.finRange m).map (fun i => List.ofFn (fun j => w i j))).length := by
      simp [i.isLt]
    rw [List.getD_eq_getElem _ _ hlen, List.getElem_map, List.getElem_finRange]
    exact getD_ofFn _ j
  case hall =>
    intro r hr
    simp only [List.mem_map] at hr
    obtain ⟨a, _, rfl⟩ := hr
    simp

theorem getMat_load {m n : ℕ} (rec : LayerRec) (k : JKey)
    (old w : Fin m → Fin n → ℚ) (hl : alookup k rec = some (matToJson w)) :
    getMat m n rec k old = w := by
  unfold getMat
  rw [hl]
  show (if (matToJson w).rows = m ∧ (matToJson w).cols = n ∧
      (matToJson w).data.length = m * n then
    (fun i j => (matToJson w).data.getD (i.val * n + j.val) 0) else old) = w
  rw [if_pos ⟨rfl, rfl, matData_length w⟩]
  funext i j
  exact matData_getD w i j

theorem getMat_skip {m n : ℕ} (rec : LayerRec) (k : JKey)
    (old : Fin m → Fin n → ℚ) (hl : alookup k rec = none) :
    getMat m n rec k old = old := by
  unfold getMat
  rw [hl]

theorem getVec_load {m : ℕ} (rec : LayerRec) (k : JKey)
    (old b : Fin m → ℚ) (hl : alookup k rec = some (vecToJson b)) :
    getVec m rec k old = b := by
  unfold getVec
  rw [hl]
  show (if (vecToJson b).rows = m ∧ (vecToJson b).cols = 1 ∧
      (vecToJson b).data.length = m then
    (fun i => (vecToJson b).data.getD i.val 0) else old) = b
  rw [if_pos ⟨rfl, rfl, by simp [vecToJson]⟩]
  funext i
  exact getD_ofFn b i

theorem getVec_skip {m : ℕ} (rec : LayerRec) (k : JKey)
    (old : Fin m → ℚ) (hl : alookup k rec = none) :
    getVec m rec k old = old := by
  unfold getVec
  rw [hl]

theorem JsonToDense_roundtrip {m n : ℕ} (w : Fin m → Fin n → ℚ) (b : Fin m → ℚ) :
    JsonToDense (.dense m n w b) (DenseToJson (.dense m n w b)) = .dense m n w b := by
  have hw : getMat m n (DenseToJson (Layer.dense m n w b)) JKey.weights w = w :=
    getMat_load _ _ _ _ rfl
  have hb : getVec m (DenseToJson (Layer.dense m n w b)) JKey.bias b = b :=
    getVec_load _ _ _ _ rfl
  show Layer.dense m n (getMat m n (DenseToJson (Layer.dense m n w b)) .weights w)
    (getVec m (DenseToJson (Layer.dense m n w b)) .bias b) = _
  rw [hw, hb]

theorem JsonToGru_roundtrip {m n : ℕ} (wr wz wn : Fin m → Fin n → ℚ)
    (ur uz un : Fin m → Fin m → ℚ) (br bz bn : Fin m → ℚ) (h : Fin m → FV) :
    JsonToGru (.gru m n wr wz wn ur uz un br bz bn h)
        (GruToJson (.gru m n wr wz wn ur uz un br bz bn h)) =
      .gru m n wr wz wn ur uz un br bz bn h := by
  have h1 : getMat m n (GruToJson (Layer.gru m n wr wz wn ur uz un br bz bn h))
      JKey.kwr wr = wr := getMat_load _ _ _ _ rfl
  have h2 : getMat m n (GruToJson (Layer.gru m n wr wz wn ur uz un br bz bn h))
      JKey.kwz wz = wz := getMat_load _ _ _ _ rfl
  have h3 : getMat m n (GruToJson (Layer.gru m n wr wz wn ur uz un br bz bn h))
      JKey.kwn wn = wn := getMat_load _ _ _ _ rfl
  have h4 : getMat m m (GruToJson (Layer.gru m n wr wz wn ur uz un br bz bn h))
      JKey.kur ur = ur := getMat_load _ _ _ _ rfl
  have h5 : getMat m m (GruToJson (Layer.gru m n wr wz wn ur uz un br bz bn h))
      JKey.kuz uz = uz := getMat_load _ _ _ _ rfl
  have h6 : getMat m m (GruToJson (Layer.gru m n wr wz wn ur uz un br bz bn h))
      JKey.kun un = un := getMat_load _ _ _ _ rfl
  have h7 : getVec m (GruToJson (Layer.gru m n wr wz wn ur uz un br bz bn h))
      JKey.kbr br = br := getVec_load _ _ _ _ rfl
  have h8 : getVec m (GruToJson (Layer.gru m n wr wz wn ur uz un br bz bn h))
      JKey.kbz bz = bz := getVec_load _ _ _ _ rfl
  have h9 : getVec m (GruToJson (Layer.gru m n wr wz wn ur uz un br bz bn h))
      JKey.kbn bn = bn := getVec_load _ _ _ _ rfl
  show Layer.gru m n
      (getMat m n (GruToJson (Layer.gru m n wr wz wn ur uz un br bz bn h)) .kwr wr)
      (getMat m n (GruToJson (Layer.gru m n wr wz wn ur uz un br bz bn h)) .kwz wz)
      (getMat m n (GruToJson (Layer.gru m n wr wz wn ur uz un br bz bn h)) .kwn wn)
      (getMat m m (GruToJson (Layer.gru m n wr wz wn ur uz un br bz bn h)) .kur ur)
      (getMat m m (GruToJson (Layer.gru m n wr wz wn ur uz un br bz bn h)) .kuz uz)
      (getMat m m (GruToJson (Layer.gru m n wr wz wn ur uz un br bz bn h)) .kun un)
      (getVec m (GruToJson (Layer.gru m n wr wz wn ur uz un br bz bn h)) .kbr br)
      (getVec m (GruToJson (Layer.gru m n wr wz wn ur uz un br bz bn h)) .kbz bz)
      (getVec m (GruToJson (Layer.gru m n wr wz wn ur uz un br bz bn h)) .kbn bn)
      h = _
  rw [h1, h2, h3, h4, h5, h6, h7, h8, h9]

/-- Claim C2: for the recurrent layer, `forward` computes
`r = σ(Wr x + Ur h + br)`, `z = σ(Wz x + Uz h + bz)`,
`n = tanh(Wn x + Un (r ⊙ h) + bn)`, returns `h' = (1 − z) ⊙ n + z ⊙ h`,
and commits `h'` as the new persistent hidden state (the returned layer
carries `h'`). -/
theorem c2_gru_forward (tq sq : ℚ → ℚ) {m n : ℕ}
    (wr wz wn : Fin m → Fin n → ℚ) (ur uz un : Fin m → Fin m → ℚ)
    (br bz bn : Fin m → ℚ) (h : Fin m → FV) (x : Fin n → FV) :
    Layer.forward tq sq (.gru m n wr wz wn ur uz un br bz bn h) ⟨n, x⟩ =
      (let r : Fin m → FV := fun i =>
         sigmoidFV sq (addFV (addFV (dotFV (wr i) x) (dotFV (ur i) h)) (.fin (br i)))
       let z : Fin m → FV := fun i =>
         sigmoidFV sq (addFV (addFV (dotFV (wz i) x) (dotFV (uz i) h)) (.fin (bz i)))
       let nn : Fin m → FV := fun i =>
         tanhFV tq (addFV (addFV (dotFV (wn i) x)
           (dotFV (un i) (fun j => mulFV (r j) (h j)))) (.fin (bn i)))
       let hNew : Fin m → FV := fun i =>
         addFV (mulFV (subFV (.fin 1) (z i)) (nn i)) (mulFV (z i) (h i))
       some (⟨m, hNew⟩, .gru m n wr wz wn ur uz un br bz bn hNew)) := by
  dsimp only [Layer.forward]
  rw [dif_pos rfl]
  rfl

/-- Claim C8: construction assembles exactly four layers in order —
Dense 4→4, Tanh 4, GRU 4→4, Dense 4→1 — and after construction every
element of the final affine layer's bias vector is 0. -/
theorem c8_construction (p : NetW) (h0 : Fin 4 → FV) (rng : RNG) :
    ∃ bo2, (ChowRNNInit p h0 rng).layers =
      [.dense 4 4 p.w1 p.b1, .tanhAct 4,
       .gru 4 4 p.wr p.wz p.wn p.ur p.uz p.un p.br p.bz p.bn (fun _ => .fin 0),
       .dense 1 4 p.wo bo2] ∧ (∀ i, bo2 i = 0) :=
  ⟨fun _ => 0, rfl, fun _ => rfl⟩

/-- Claim C9: `randomiseModel` overwrites the first affine layer's weights
and bias, all nine GRU tensors, and the output affine layer's weights with
fresh draws from the random stream, and mutates nothing else: the GRU's
persistent hidden state `h`, the output bias, and the DC-blocker state are
unchanged. -/
theorem c9_randomise_frame (p : NetW) (h : Fin 4 → FV) (rng : RNG)
    (dc : BiquadState) :
    randomiseModel ⟨chowLayers p h, rng, dc⟩ =
      ⟨[.dense 4 4 (randDraws p rng).1.w1 (randDraws p rng).1.b1, .tanhAct 4,
        .gru 4 4 (randDraws p rng).1.wr (randDraws p rng).1.wz (randDraws p rng).1.wn
          (randDraws p rng).1.ur (randDraws p rng).1.uz (randDraws p rng).1.un
          (randDraws p rng).1.br (randDraws p rng).1.bz (randDraws p rng).1.bn h,
        .dense 1 4 (randDraws p rng).1.wo p.bo],
       (randDraws p rng).2, dc⟩ := rfl

/-- Claim C3: loading the document produced by saving (dataFromJson after
dataToJson) reproduces every weight-bearing layer's parameter tensors
element-for-element — it is the identity on a well-formed module state. -/
theorem c3_save_load_roundtrip (s : ChowRNNState) (hwf : WF s.layers) :
    dataFromJson s (dataToJson s) = s := by
  obtain ⟨ls, rng, dc⟩ := s
  obtain ⟨p, h, hls⟩ := hwf
  dsimp only at hls
  subst hls
  show ChowRNNState.mk
    [JsonToDense (.dense 4 4 p.w1 p.b1) (DenseToJson (.dense 4 4 p.w1 p.b1)),
     .tanhAct 4,
     JsonToGru (.gru 4 4 p.wr p.wz p.wn p.ur p.uz p.un p.br p.bz p.bn h)
       (GruToJson (.gru 4 4 p.wr p.wz p.wn p.ur p.uz p.un p.br p.bz p.bn h)),
     JsonToDense (.dense 1 4 p.wo p.bo) (DenseToJson (.dense 1 4 p.wo p.bo))]
    rng dc = ⟨chowLayers p h, rng, dc⟩
  rw [JsonToDense_roundtrip, JsonToGru_roundtrip, JsonToDense_roundtrip]
  rfl

/-- Witness for C3 at a concrete state. -/
theorem c3_save_load_roundtrip_witness :
    dataFromJson state0 (dataToJson state0) = state0 :=
  c3_save_load_roundtrip state0 ⟨netW0, fun _ => .fin 0, rfl⟩

/-- Claim C6: the makeup gain applied to the emitted output equals
`4 / max(numConnected, 1)`; the divisor is at least 1, so the gain
computation never divides by zero, including with zero connected inputs. -/
theorem c6_makeup_gain (tq sq : ℚ → ℚ) (coeffs : BiquadCoeffs) (rp : ℚ)
    (inputs : Fin 4 → InPort) (s : ChowRNNState) (hwf : WF s.layers) :
    (∃ yf, (process tq sq coeffs rp inputs s).2 =
      mulFV yf (.fin (makeupGain inputs))) ∧
    makeupGain inputs = 4 / ((max (numConnected inputs) 1 : ℕ) : ℚ) ∧
    1 ≤ max (numConnected inputs) 1 := by
  refine ⟨?_, rfl, le_max_right _ _⟩
  obtain ⟨ls, rng, dc⟩ := s
  obtain ⟨p, h, hls⟩ := hwf
  dsimp only at hls
  subst hls
  rw [process_chow]
  exact ⟨_, rfl⟩

/-- Witness for C6 with zero connected inputs: the divisor floors at 1. -/
theorem c6_makeup_gain_witness :
    (∃ yf, (process tqId sqHalf bqC 0 portsNone state0).2 =
      mulFV yf (.fin (makeupGain portsNone))) ∧
    makeupGain portsNone = 4 / ((max (numConnected portsNone) 1 : ℕ) : ℚ) ∧
    1 ≤ max (numConnected portsNone) 1 :=
  c6_makeup_gain tqId sqHalf bqC 0 portsNone state0 ⟨netW0, fun _ => .fin 0, rfl⟩

/-- Claim C5: every `process` invocation executes, in order: optional
randomisation on the trigger, reading the fixed-width input vector,
`Model.forward`, the instability check on the forward value, the
DC-blocking post-filter on the (possibly zeroed) sample, the makeup gain,
and emission of the scaled value. -/
theorem c5_pipeline (tq sq : ℚ → ℚ) (coeffs : BiquadCoeffs) (rp : ℚ)
    (inputs : Fin 4 → InPort) (s : ChowRNNState) (hwf : WF s.layers) :
    ∃ y ls1,
      modelForward tq sq (if rp ≠ 0 then randomiseModel s else s).layers
        ⟨4, fun i => (inputs i).voltage⟩ = some (y, ls1) ∧
      process tq sq coeffs rp inputs s =
        (let s1 := if rp ≠ 0 then randomiseModel s else s
         let g : FV × List Layer :=
           if isnanFV y then (.fin 0, modelReset ls1) else (y, ls1)
         let bq := biquadProcess coeffs s1.dcBlocker g.1
         (⟨g.2, s1.rando, bq.2⟩, mulFV bq.1 (.fin (makeupGain inputs)))) := by
  obtain ⟨ls, rng, dc⟩ := s
  obtain ⟨p, h, hls⟩ := hwf
  dsimp only at hls
  subst hls
  by_cases hrp : rp = 0
  · subst hrp
    refine ⟨chowOut tq sq p h (fun i => (inputs i).voltage),
      chowLayers p (chowGruNext tq sq p h (fun i => (inputs i).voltage)), ?_, ?_⟩
    · simp only [ne_eq, not_true_eq_false, if_false]
      exact modelForward_chow _ _ _ _ _
    · rw [process_chow]
      simp only [ne_eq, not_true_eq_false, if_false]
      rfl
  · refine ⟨chowOut tq sq (randDraws p rng).1 h (fun i => (inputs i).voltage),
      chowLayers (randDraws p rng).1
        (chowGruNext tq sq (randDraws p rng).1 h (fun i => (inputs i).voltage)),
      ?_, ?_⟩
    · simp only [ne_eq, hrp, not_false_eq_true, if_true, randomiseModel_chow]
      exact modelForward_chow _ _ _ _ _
    · rw [process_chow]
      simp only [ne_eq, hrp, not_false_eq_true, if_true, randomiseModel_chow]
      rfl

/-- Witness for C5 at a concrete state and input. -/
theorem c5_pipeline_witness :
    ∃ y ls1,
      modelForward tqId sqHalf
        (if (0 : ℚ) ≠ 0 then randomiseModel state0 else state0).layers
        ⟨4, fun i => (portsOne i).voltage⟩ = some (y, ls1) ∧
      process tqId sqHalf bqC 0 portsOne state0 =
        (let s1 := if (0 : ℚ) ≠ 0 then randomiseModel state0 else state0
         let g : FV × List Layer :=
           if isnanFV y then (.fin 0, modelReset ls1) else (y, ls1)
         let bq := biquadProcess bqC s1.dcBlocker g.1
         (⟨g.2, s1.rando, bq.2⟩, mulFV bq.1 (.fin (makeupGain portsOne)))) :=
  c5_pipeline tqId sqHalf bqC 0 portsOne state0 ⟨netW0, fun _ => .fin 0, rfl⟩

/-- Counterexample to claim C1 as stated: a `+∞` forward value is not a
finite number but is not NaN either, so the `std::isnan` guard does not
fire — the sample reaches the post-filter un-zeroed and the model is not
reset.  `stateInf` carries a hidden state saturated to `+∞` (the float
program's overflow regime); with the recurrent and output weights of
`netInf` the forward pass propagates it to a `+∞` output, and after
`process` the recurrent layer still holds `+∞` (no reset) while the
post-filter consumed `+∞`, not 0. -/
theorem c1_counterexample :
    modelForward tqId sqHalf stateInf.layers ⟨4, fun i => (portsOne i).voltage⟩ =
      some (FV.pinf, chowLayers netInf (fun _ => FV.pinf)) ∧
    isfiniteFV FV.pinf = false ∧
    process tqId sqHalf bqC 0 portsOne stateInf =
      (⟨chowLayers netInf (fun _ => FV.pinf), rng0,
        (biquadProcess bqC ⟨.fin 0, .fin 0⟩ FV.pinf).2⟩,
       mulFV (biquadProcess bqC ⟨.fin 0, .fin 0⟩ FV.pinf).1
         (.fin (makeupGain portsOne))) ∧
    (process tqId sqHalf bqC 0 portsOne stateInf).1.layers[2]? =
      some (.gru 4 4 netInf.wr netInf.wz netInf.wn netInf.ur netInf.uz netInf.un
        netInf.br netInf.bz netInf.bn (fun _ => FV.pinf)) ∧
    FV.pinf ≠ FV.fin 0 :=
  ⟨rfl, rfl, rfl, rfl, by decide⟩

/-- Claim C1, amended: narrowed from "not a finite number" to NaN — the
code's guard is `std::isnan(y)` alone, and an infinite forward value
escapes it (see the counterexample).  On any `process` invocation, if the
value `y` returned by `Model.forward` on that sample's input vector is
NaN, the engine sets the sample to 0 and calls `Model.reset()` before the
post-filter stage (the filter runs on the zeroed sample and the new state
carries the reset layers); the condition is never propagated to the
caller as a failure — `process` still returns a state and an output
voltage. -/
theorem c1_instability_guard (tq sq : ℚ → ℚ) (coeffs : BiquadCoeffs) (rp : ℚ)
    (inputs : Fin 4 → InPort) (s : ChowRNNState) (hwf : WF s.layers) :
    ∀ y ls1,
      modelForward tq sq (if rp ≠ 0 then randomiseModel s else s).layers
        ⟨4, fun i => (inputs i).voltage⟩ = some (y, ls1) →
      isnanFV y = true →
      process tq sq coeffs rp inputs s =
        (⟨modelReset ls1, (if rp ≠ 0 then randomiseModel s else s).rando,
          (biquadProcess coeffs s.dcBlocker (.fin 0)).2⟩,
         mulFV (biquadProcess coeffs s.dcBlocker (.fin 0)).1
           (.fin (makeupGain inputs))) := by
  obtain ⟨ls, rng, dc⟩ := s
  obtain ⟨p, h, hls⟩ := hwf
  dsimp only at hls
  subst hls
  intro y ls1 hfwd hnan
  by_cases hrp : rp = 0
  · subst hrp
    simp only [ne_eq, not_true_eq_false, if_false] at hfwd ⊢
    rw [modelForward_chow] at hfwd
    injection hfwd with hfwd2
    injection hfwd2 with hy hls1
    rw [← hy] at hnan
    rw [process_chow]
    simp only [ne_eq, not_true_eq_false, if_false, hnan, if_true, ← hls1,
      modelReset_chow]
  · simp only [ne_eq, hrp, not_false_eq_true, if_true, randomiseModel_chow]
      at hfwd ⊢
    rw [modelForward_chow] at hfwd
    injection hfwd with hfwd2
    injection hfwd2 with hy hls1
    rw [← hy] at hnan
    rw [process_chow]
    simp only [ne_eq, hrp, not_false_eq_true, if_true, hnan, ← hls1,
      modelReset_chow]

/-- Witness for the amended C1: a NaN input voltage makes `Model.forward`
return NaN; the guard fires, the model is reset, and the zero sample
enters the post-filter. -/
theorem c1_instability_guard_witness :
    process tqId sqHalf bqC 0 portsNan state0 =
      (⟨modelReset (chowLayers netW0 (fun _ => FV.nan)),
        (if (0 : ℚ) ≠ 0 then randomiseModel state0 else state0).rando,
        (biquadProcess bqC state0.dcBlocker (.fin 0)).2⟩,
       mulFV (biquadProcess bqC state0.dcBlocker (.fin 0)).1
         (.fin (makeupGain portsNan))) :=
  c1_instability_guard tqId sqHalf bqC 0 portsNan state0
    ⟨netW0, fun _ => .fin 0, rfl⟩
    FV.nan (chowLayers netW0 (fun _ => FV.nan)) rfl rfl

/-- Counterexample to claim C7 as stated: in a sample where
`Model.forward` produces a non-finite value (NaN, from a NaN input
voltage), the emitted output voltage is NOT 0 when the DC blocker holds
residue from earlier samples — on `stateZ1` the guard zeroes the sample
and resets the model, but the post-filter adds its state `z1 = 1` to the
zero sample, so the emitted voltage is `1 · makeupGain ≠ 0`. -/
theorem c7_counterexample :
    modelForward tqId sqHalf stateZ1.layers ⟨4, fun i => (portsNan i).voltage⟩ =
      some (FV.nan, chowLayers netW0 (fun _ => FV.nan)) ∧
    (process tqId sqHalf bqC 0 portsNan stateZ1).2 ≠ FV.fin 0 := by
  refine ⟨rfl, ?_⟩
  intro hcontra
  have h2 : (process tqId sqHalf bqC 0 portsNan stateZ1).2 =
      FV.fin ((0 * 0 + 1) * makeupGain portsNan) := rfl
  rw [h2] at hcontra
  injection hcontra with hq
  have hnc : numConnected portsNan = 4 := rfl
  rw [makeupGain, hnc] at hq
  norm_num at hq

/-- Claim C7, amended: narrowed from "a non-finite value" to NaN (the
code's guard is `std::isnan`, which an infinite value escapes — the same
narrowing as C1's correction): in the sample where `Model.forward`
produces NaN, the value passed into the post-filter is 0 and the
recurrent layer's hidden state equals the zero vector immediately after
the invocation; the emitted voltage is the post-filter's response to that
zero sample, scaled by the makeup gain (not necessarily 0, because the
DC blocker carries state — see the counterexample). -/
theorem c7_recovery (tq sq : ℚ → ℚ) (coeffs : BiquadCoeffs) (rp : ℚ)
    (inputs : Fin 4 → InPort) (s : ChowRNNState) (hwf : WF s.layers) :
    ∀ y ls1,
      modelForward tq sq (if rp ≠ 0 then randomiseModel s else s).layers
        ⟨4, fun i => (inputs i).voltage⟩ = some (y, ls1) →
      isnanFV y = true →
      ∃ p2, (process tq sq coeffs rp inputs s).1.layers =
          chowLayers p2 (fun _ => FV.fin 0) ∧
        (process tq sq coeffs rp inputs s).2 =
          mulFV (biquadProcess coeffs s.dcBlocker (.fin 0)).1
            (.fin (makeupGain inputs)) := by
  obtain ⟨ls, rng, dc⟩ := s
  obtain ⟨p, h, hls⟩ := hwf
  dsimp only at hls
  subst hls
  intro y ls1 hfwd hnan
  by_cases hrp : rp = 0
  · subst hrp
    simp only [ne_eq, not_true_eq_false, if_false] at hfwd
    rw [modelForward_chow] at hfwd
    injection hfwd with hfwd2
    injection hfwd2 with hy hls1
    rw [← hy] at hnan
    refine ⟨p, ?_, ?_⟩ <;>
      · rw [process_chow]
        simp only [ne_eq, not_true_eq_false, if_false, hnan, if_true]
  · simp only [ne_eq, hrp, not_false_eq_true, if_true, randomiseModel_chow] at hfwd
    rw [modelForward_chow] at hfwd
    injection hfwd with hfwd2
    injection hfwd2 with hy hls1
    rw [← hy] at hnan
    refine ⟨(randDraws p rng).1, ?_, ?_⟩ <;>
      · rw [process_chow]
        simp only [ne_eq, hrp, not_false_eq_true, if_true, hnan]

/-- Witness for the amended C7 at a concrete state. -/
theorem c7_recovery_witness :
    ∃ p2, (process tqId sqHalf bqC 0 portsNan state0).1.layers =
        chowLayers p2 (fun _ => FV.fin 0) ∧
      (process tqId sqHalf bqC 0 portsNan state0).2 =
        mulFV (biquadProcess bqC state0.dcBlocker (.fin 0)).1
          (.fin (makeupGain portsNan)) :=
  c7_recovery tqId sqHalf bqC 0 portsNan state0
    ⟨netW0, fun _ => .fin 0, rfl⟩
    FV.nan (chowLayers netW0 (fun _ => FV.nan)) rfl rfl

theorem processStep_shape (c : CallArgs) (p : NetW) (h : Fin 4 → FV)
    (rng : RNG) (dc : BiquadState) :
    ∃ p2 h2 rng2 dc2,
      processStep ⟨chowLayers p h, rng, dc⟩ c = ⟨chowLayers p2 h2, rng2, dc2⟩ ∧
      p2.bo = p.bo := by
  unfold processStep
  rw [process_chow]
  by_cases hrp : c.randomParam = 0
  · simp only [hrp, ne_eq, not_true_eq_false, if_false]
    by_cases hnan : isnanFV (chowOut c.tq c.sq p h (fun i => (c.inputs i).voltage)) = true
    · simp only [hnan, if_true]
      exact ⟨p, fun _ => .fin 0, rng, _, rfl, rfl⟩
    · rw [Bool.not_eq_true] at hnan
      simp only [hnan, Bool.false_eq_true, if_false]
      exact ⟨p, chowGruNext c.tq c.sq p h (fun i => (c.inputs i).voltage), rng, _,
        rfl, rfl⟩
  · simp only [ne_eq, hrp, not_false_eq_true, if_true]
    by_cases hnan : isnanFV (chowOut c.tq c.sq (randDraws p rng).1 h
        (fun i => (c.inputs i).voltage)) = true
    · simp only [hnan, if_true]
      exact ⟨(randDraws p rng).1, fun _ => .fin 0, (randDraws p rng).2, _, rfl, rfl⟩
    · rw [Bool.not_eq_true] at hnan
      simp only [hnan, Bool.false_eq_true, if_false]
      exact ⟨(randDraws p rng).1,
        chowGruNext c.tq c.sq (randDraws p rng).1 h (fun i => (c.inputs i).voltage),
        (randDraws p rng).2, _, rfl, rfl⟩

theorem processRun_bias (calls : List CallArgs) :
    ∀ (p : NetW) (h : Fin 4 → FV) (rng : RNG) (dc : BiquadState),
      ∃ p2 h2 rng2 dc2,
        calls.foldl processStep ⟨chowLayers p h, rng, dc⟩ =
          ⟨chowLayers p2 h2, rng2, dc2⟩ ∧ p2.bo = p.bo := by
  induction calls with
  | nil => intro p h rng dc; exact ⟨p, h, rng, dc, rfl, rfl⟩
  | cons c rest ih =>
    intro p h rng dc
    obtain ⟨p1, h1, rng1, dc1, hstep, hbo1⟩ := processStep_shape c p h rng dc
    obtain ⟨p2, h2, rng2, dc2, hrun, hbo2⟩ := ih p1 h1 rng1 dc1
    refine ⟨p2, h2, rng2, dc2, ?_, hbo2.trans hbo1⟩
    rw [List.foldl_cons, hstep, hrun]

/-- Claim C10: the output affine layer's bias stays the zero vector under
every sequence of `process` calls (with or without randomisation triggers,
and without an intervening load): it is zeroed at construction, and
`randomiseModel` randomises only the output layer's weights, never its
bias. -/
theorem c10_output_bias_invariant (p : NetW) (h0 : Fin 4 → FV) (rng : RNG)
    (calls : List CallArgs) :
    ∃ p2 h2 rng2 dc2,
      calls.foldl processStep (ChowRNNInit p h0 rng) =
        ⟨chowLayers p2 h2, rng2, dc2⟩ ∧ ∀ i, p2.bo i = 0 := by
  rw [ChowRNNInit_eq]
  obtain ⟨p2, h2, rng2, dc2, hrun, hbo⟩ :=
    processRun_bias calls { p with bo := fun _ => 0 } (fun _ => .fin 0) rng
      ⟨.fin 0, .fin 0⟩
  exact ⟨p2, h2, rng2, dc2, hrun, fun i => by rw [hbo]⟩

/-- Claim C4: a top-level layer key absent from a persistence document is
skipped during load without error and the corresponding layer's parameters
are left exactly as they were; layers whose keys are present are loaded
from their records. -/
theorem c4_partial_load (doc : Doc) (p : NetW) (h : Fin 4 → FV) (rng : RNG)
    (dc : BiquadState) :
    (alookup JKey.dense1 doc = none →
      (dataFromJson ⟨chowLayers p h, rng, dc⟩ doc).layers[0]? =
        some (.dense 4 4 p.w1 p.b1)) ∧
    (alookup JKey.gru doc = none →
      (dataFromJson ⟨chowLayers p h, rng, dc⟩ doc).layers[2]? =
        some (.gru 4 4 p.wr p.wz p.wn p.ur p.uz p.un p.br p.bz p.bn h)) ∧
    (alookup JKey.denseOut doc = none →
      (dataFromJson ⟨chowLayers p h, rng, dc⟩ doc).layers[3]? =
        some (.dense 1 4 p.wo p.bo)) ∧
    (∀ r, alookup JKey.dense1 doc = some r →
      (dataFromJson ⟨chowLayers p h, rng, dc⟩ doc).layers[0]? =
        some (JsonToDense (.dense 4 4 p.w1 p.b1) r)) ∧
    (∀ r, alookup JKey.gru doc = some r →
      (dataFromJson ⟨chowLayers p h, rng, dc⟩ doc).layers[2]? =
        some (JsonToGru (.gru 4 4 p.wr p.wz p.wn p.ur p.uz p.un p.br p.bz p.bn h) r)) ∧
    (∀ r, alookup JKey.denseOut doc = some r →
      (dataFromJson ⟨chowLayers p h, rng, dc⟩ doc).layers[3]? =
        some (JsonToDense (.dense 1 4 p.wo p.bo) r)) := by
  cases hd : alookup JKey.dense1 doc <;> cases hg : alookup JKey.gru doc <;>
    cases ho : alookup JKey.denseOut doc <;>
    simp_all [dataFromJson, chowLayers]

/-- Witness for C4: loading a document with only a `"dense1"` record leaves
the recurrent layer's parameters untouched. -/
theorem c4_partial_load_witness :
    (dataFromJson ⟨chowLayers netW0 (fun _ => FV.fin 0), rng0,
        ⟨.fin 0, .fin 0⟩⟩
      [(JKey.dense1, DenseToJson (.dense 4 4 (fun _ _ => 5) (fun _ => 7)))]).layers[2]? =
      some (.gru 4 4 netW0.wr netW0.wz netW0.wn netW0.ur netW0.uz netW0.un
        netW0.br netW0.bz netW0.bn (fun _ => FV.fin 0)) :=
  (c4_partial_load
    [(JKey.dense1, DenseToJson (.dense 4 4 (fun _ _ => 5) (fun _ => 7)))]
    netW0 (fun _ => FV.fin 0) rng0 ⟨.fin 0, .fin 0⟩).2.1 rfl

end ChowDSP
